import Mathlib

/-!
Verification of the frontend consumer logic of the model-behavior
deliberation UI: the streaming send loop of App.jsx, the mode locking of
ChatInterface.jsx, and the render logic of Stage2.jsx and HybridView.jsx.

JS absent/null values are modelled with Option: none is the falsy
absent/null case, some is an object or array value.  A JS array is truthy
even when empty, so some [] is deliberately distinct from none.
-/

namespace ModelBehavior

/-- One model response record, as carried by stage1, stage3 and hybrid
phase payloads. -/
structure ModelResponse where
  model : String
  response : String
deriving DecidableEq, Repr, Inhabited

/-- One ranking record of the stage2 payload.  parsed_ranking is none when
the field is absent from the JSON record. -/
structure RankingRecord where
  model : String
  ranking : String
  parsed_ranking : Option (List String)
deriving DecidableEq, Repr, Inhabited

/-- One aggregate ranking entry of the stage2 metadata. -/
structure AggregateEntry where
  model : String
  average_rank : Rat
  rankings_count : Nat
deriving DecidableEq, Repr, Inhabited

/-- The metadata object attached to the stage2_complete event. -/
structure Metadata where
  label_to_model : Option (List (String × String))
  aggregate_rankings : Option (List AggregateEntry)
deriving DecidableEq, Repr, Inhabited

/-- A conversation message as the frontend sees it.  The assistant
placeholder created by handleSendMessage carries no content field; that is
modelled as the empty string. -/
structure Message where
  role : String
  content : String
  mode : Option String
  stage1 : Option (List ModelResponse)
  stage2 : Option (List RankingRecord)
  stage3 : Option ModelResponse
  hybrid_phase1 : Option (List ModelResponse)
  hybrid_phase2 : Option (List ModelResponse)
  hybrid_phase3 : Option ModelResponse
  hybrid_phase4 : Option ModelResponse
  metadata : Option Metadata
deriving DecidableEq, Repr, Inhabited

/-- The conversation held in React state (currentConversation). -/
structure Conversation where
  title : String
  messages : List Message
deriving DecidableEq, Repr, Inhabited

/-- A server-sent event parsed from one data line of the stream consumed
by handleSendMessage (App.jsx).  The other constructor covers every event
type the dispatch chain does not handle, in particular the start events
such as stage1_start. -/
inductive Event where
  | stage1_complete (d : List ModelResponse)
  | stage2_complete (d : List RankingRecord) (meta : Metadata)
  | stage3_complete (d : ModelResponse)
  | hybrid_phase1_complete (d : List ModelResponse)
  | hybrid_phase2_complete (d : List ModelResponse)
  | hybrid_phase3_complete (d : ModelResponse)
  | hybrid_phase4_complete (d : ModelResponse)
  | title_complete (title : String)
  | complete
  | error (message : String)
  | other (eventType : String)
deriving DecidableEq, Repr

/-- The state handleSendMessage threads through its read loop: the local
assistantMessage accumulator and the conversation in React state. -/
structure SendState where
  assistantMessage : Message
  conv : Conversation
deriving DecidableEq, Repr

/-- updatedMessages[updatedMessages.length - 1] = m, on a non-empty list
(handleSendMessage always appends the placeholder first). -/
def setLast (l : List Message) (m : Message) : List Message :=
  match l with
  | [] => []
  | _ :: _ => l.dropLast ++ [m]

/-- One step of the event dispatch chain in handleSendMessage (App.jsx
lines 127 to 193).  Each completion branch mutates one field of the
accumulator and writes a copy of it over the last message; title_complete
replaces the conversation title; complete only refetches the sidebar
list; the error branch only logs here, its break is modelled in
processChunk; unhandled types fall through every branch. -/
def applyEvent (s : SendState) (e : Event) : SendState :=
  match e with
  | .stage1_complete d =>
      let am := { s.assistantMessage with stage1 := some d }
      { assistantMessage := am,
        conv := { s.conv with messages := setLast s.conv.messages am } }
  | .stage2_complete d meta =>
      let am := { s.assistantMessage with stage2 := some d, metadata := some meta }
      { assistantMessage := am,
        conv := { s.conv with messages := setLast s.conv.messages am } }
  | .stage3_complete d =>
      let am := { s.assistantMessage with stage3 := some d }
      { assistantMessage := am,
        conv := { s.conv with messages := setLast s.conv.messages am } }
  | .hybrid_phase1_complete d =>
      let am := { s.assistantMessage with hybrid_phase1 := some d }
      { assistantMessage := am,
        conv := { s.conv with messages := setLast s.conv.messages am } }
  | .hybrid_phase2_complete d =>
      let am := { s.assistantMessage with hybrid_phase2 := some d }
      { assistantMessage := am,
        conv := { s.conv with messages := setLast s.conv.messages am } }
  | .hybrid_phase3_complete d =>
      let am := { s.assistantMessage with hybrid_phase3 := some d }
      { assistantMessage := am,
        conv := { s.conv with messages := setLast s.conv.messages am } }
  | .hybrid_phase4_complete d =>
      let am := { s.assistantMessage with hybrid_phase4 := some d }
      { assistantMessage := am,
        conv := { s.conv with messages := setLast s.conv.messages am } }
  | .title_complete t => { s with conv := { s.conv with title := t } }
  | .complete => s
  | .error _ => s
  | .other _ => s

/-- The for loop over the parsed data lines of one decoded chunk: the
error branch breaks out of this loop, and only out of this loop. -/
def processChunk (s : SendState) (chunk : List Event) : SendState :=
  match chunk with
  | [] => s
  | e :: rest =>
    match e with
    | .error _ => s
    | _ => processChunk (applyEvent s e) rest

/-- The while loop over reader.read() results; each chunk is the list of
parsed data lines of one read.  The loop always advances to the next
chunk, even after a chunk whose processing hit an error event, because
the break of the error branch only leaves the inner for loop. -/
def processStream (s : SendState) (chunks : List (List Event)) : SendState :=
  chunks.foldl processChunk s

/-- The empty metadata object of the assistant placeholder. -/
def emptyMetadata : Metadata :=
  { label_to_model := none, aggregate_rankings := none }

/-- The user message appended at the start of a send. -/
def mkUserMessage (content : String) : Message :=
  { role := "user", content := content, mode := none, stage1 := none,
    stage2 := none, stage3 := none, hybrid_phase1 := none,
    hybrid_phase2 := none, hybrid_phase3 := none, hybrid_phase4 := none,
    metadata := none }

/-- The empty assistant placeholder built by handleSendMessage, both as
the appended message and as the local accumulator. -/
def initialAssistantMessage (mode : String) : Message :=
  { role := "assistant", content := "", mode := some mode,
    stage1 := some [], stage2 := some [], stage3 := none,
    hybrid_phase1 := some [], hybrid_phase2 := some [],
    hybrid_phase3 := none, hybrid_phase4 := none,
    metadata := some emptyMetadata }

/-- The state right after the first setCurrentConversation of
handleSendMessage: user message and assistant placeholder appended, local
accumulator initialised to the same placeholder. -/
def initialSendState (conv : Conversation) (content mode : String) : SendState :=
  { assistantMessage := initialAssistantMessage mode,
    conv := { conv with
      messages := conv.messages ++
        [mkUserMessage content, initialAssistantMessage mode] } }

/-- handleSendMessage as a function of the event chunks the response body
yields. -/
def handleSendMessage (conv : Conversation) (content mode : String)
    (chunks : List (List Event)) : SendState :=
  processStream (initialSendState conv content mode) chunks

def isErrorEvent : Event → Bool
  | .error _ => true
  | _ => false

def isCouncilEvent : Event → Bool
  | .stage1_complete _ => true
  | .stage2_complete _ _ => true
  | .stage3_complete _ => true
  | _ => false

def isHybridEvent : Event → Bool
  | .hybrid_phase1_complete _ => true
  | .hybrid_phase2_complete _ => true
  | .hybrid_phase3_complete _ => true
  | .hybrid_phase4_complete _ => true
  | _ => false

/-- Event types with a branch in the dispatch chain of handleSendMessage. -/
def isHandledEvent : Event → Bool
  | .other _ => false
  | _ => true

/-- Stage or phase completion events. -/
def isCompletionEvent : Event → Bool
  | .stage1_complete _ => true
  | .stage2_complete _ _ => true
  | .stage3_complete _ => true
  | .hybrid_phase1_complete _ => true
  | .hybrid_phase2_complete _ => true
  | .hybrid_phase3_complete _ => true
  | .hybrid_phase4_complete _ => true
  | _ => false

theorem processChunk_cons_of_not_error (s : SendState) (e : Event)
    (tl : List Event) (h : isErrorEvent e = false) :
    processChunk s (e :: tl) = processChunk (applyEvent s e) tl := by
  cases e <;> first
    | rfl
    | simp [isErrorEvent] at h

theorem processChunk_append_error (events post : List Event) (msg : String) :
    ∀ s : SendState, (∀ e ∈ events, isErrorEvent e = false) →
      processChunk s (events ++ Event.error msg :: post) = processChunk s events := by
  induction events with
  | nil => intro s _; rfl
  | cons e tl ih =>
    intro s h
    have he := h e (List.mem_cons_self e tl)
    rw [List.cons_append, processChunk_cons_of_not_error s e _ he,
        processChunk_cons_of_not_error s e tl he]
    exact ih (applyEvent s e) (fun x hx => h x (List.mem_cons_of_mem e hx))

/-- A fixed conversation used for concrete instantiations. -/
def sampleConv : Conversation := { title := "t", messages := [] }

/-- C1 fails on the code: an error event only stops the processing of the
chunk it arrives in.  Here a stage1_complete event delivered in the chunk
after the error is still applied and changes the message list. -/
theorem error_event_counterexample :
    (handleSendMessage sampleConv "q" "council"
        [[Event.error "boom"]]).conv.messages ≠
      (handleSendMessage sampleConv "q" "council"
        [[Event.error "boom"],
         [Event.stage1_complete [{ model := "m1", response := "r1" }]]]).conv.messages := by
  decide

/-- C1 (amended): when an error event arrives, the remaining events of the
same decoded chunk are not applied, but the read loop goes on and events
of subsequent chunks are processed as normal. -/
theorem error_event_breaks_chunk_only (s : SendState) (events post : List Event)
    (msg : String) (rest : List (List Event))
    (h : ∀ e ∈ events, isErrorEvent e = false) :
    processStream s ((events ++ Event.error msg :: post) :: rest) =
      processStream (processChunk s events) rest := by
  show processStream (processChunk s (events ++ Event.error msg :: post)) rest = _
  rw [processChunk_append_error events post msg s h]

/-- Concrete instance of the amended C1 statement. -/
theorem error_event_breaks_chunk_only_witness :
    processStream (initialSendState sampleConv "q" "council")
        (([Event.stage1_complete []] ++ Event.error "boom" :: [Event.complete]) ::
          [[Event.title_complete "T"]]) =
      processStream
        (processChunk (initialSendState sampleConv "q" "council")
          [Event.stage1_complete []])
        [[Event.title_complete "T"]] :=
  error_event_breaks_chunk_only (initialSendState sampleConv "q" "council")
    [Event.stage1_complete []] [Event.complete] "boom" [[Event.title_complete "T"]]
    (by decide)

theorem applyEvent_other (s : SendState) (t : String) :
    applyEvent s (Event.other t) = s := rfl

theorem processChunk_filter_handled (chunk : List Event) :
    ∀ s : SendState,
      processChunk s chunk = processChunk s (chunk.filter isHandledEvent) := by
  induction chunk with
  | nil => intro s; rfl
  | cons e tl ih =>
    intro s
    by_cases he : isErrorEvent e = true
    · obtain ⟨m, rfl⟩ : ∃ m, e = Event.error m := by
        cases e <;> first
          | exact ⟨_, rfl⟩
          | simp [isErrorEvent] at he
      rfl
    · have he' : isErrorEvent e = false := by
        cases h : isErrorEvent e
        · rfl
        · exact absurd h he
      by_cases hh : isHandledEvent e = true
      · have : List.filter isHandledEvent (e :: tl) =
            e :: List.filter isHandledEvent tl := by
          simp [List.filter_cons, hh]
        rw [processChunk_cons_of_not_error s e tl he', this,
            processChunk_cons_of_not_error s e _ he']
        exact ih (applyEvent s e)
      · obtain ⟨t, rfl⟩ : ∃ t, e = Event.other t := by
          cases e <;> first
            | exact ⟨_, rfl⟩
            | simp [isHandledEvent] at hh
        have : List.filter isHandledEvent (Event.other t :: tl) =
            List.filter isHandledEvent tl := by
          simp [List.filter_cons, isHandledEvent]
        rw [this, processChunk_cons_of_not_error s _ tl he', applyEvent_other]
        exact ih s

/-- C9: an event whose type has no branch in the dispatch chain, in
particular any start event, changes nothing: applying it is the identity
on the send state, and deleting all such events from a chunk does not
change what the chunk processing produces. -/
theorem unhandled_events_are_noops (s : SendState) (t : String)
    (chunk : List Event) :
    applyEvent s (Event.other t) = s ∧
    processChunk s chunk = processChunk s (chunk.filter isHandledEvent) :=
  ⟨applyEvent_other s t, processChunk_filter_handled chunk s⟩

/-- The hybrid protocol fields of a message. -/
def hybridPart (m : Message) :
    Option (List ModelResponse) × Option (List ModelResponse) ×
      Option ModelResponse × Option ModelResponse :=
  (m.hybrid_phase1, m.hybrid_phase2, m.hybrid_phase3, m.hybrid_phase4)

/-- The council protocol fields of a message. -/
def councilPart (m : Message) :
    Option (List ModelResponse) × Option (List RankingRecord) ×
      Option ModelResponse :=
  (m.stage1, m.stage2, m.stage3)

theorem applyEvent_hybridPart (s : SendState) (e : Event)
    (h : isHybridEvent e = false) :
    hybridPart (applyEvent s e).assistantMessage =
      hybridPart s.assistantMessage := by
  cases e <;> first
    | rfl
    | simp [isHybridEvent] at h

theorem applyEvent_councilPart (s : SendState) (e : Event)
    (h : isCouncilEvent e = false) :
    councilPart (applyEvent s e).assistantMessage =
      councilPart s.assistantMessage := by
  cases e <;> first
    | rfl
    | simp [isCouncilEvent] at h

theorem processChunk_hybridPart (chunk : List Event) :
    ∀ s : SendState, (∀ e ∈ chunk, isHybridEvent e = false) →
      hybridPart (processChunk s chunk).assistantMessage =
        hybridPart s.assistantMessage := by
  induction chunk with
  | nil => intro s _; rfl
  | cons e tl ih =>
    intro s h
    by_cases he : isErrorEvent e = true
    · obtain ⟨m, rfl⟩ : ∃ m, e = Event.error m := by
        cases e <;> first
          | exact ⟨_, rfl⟩
          | simp [isErrorEvent] at he
      rfl
    · have he' : isErrorEvent e = false := by
        cases hb : isErrorEvent e
        · rfl
        · exact absurd hb he
      rw [processChunk_cons_of_not_error s e tl he']
      rw [ih (applyEvent s e) (fun x hx => h x (List.mem_cons_of_mem e hx))]
      exact applyEvent_hybridPart s e (h e (List.mem_cons_self e tl))

theorem processChunk_councilPart (chunk : List Event) :
    ∀ s : SendState, (∀ e ∈ chunk, isCouncilEvent e = false) →
      councilPart (processChunk s chunk).assistantMessage =
        councilPart s.assistantMessage := by
  induction chunk with
  | nil => intro s _; rfl
  | cons e tl ih =>
    intro s h
    by_cases he : isErrorEvent e = true
    · obtain ⟨m, rfl⟩ : ∃ m, e = Event.error m := by
        cases e <;> first
          | exact ⟨_, rfl⟩
          | simp [isErrorEvent] at he
      rfl
    · have he' : isErrorEvent e = false := by
        cases hb : isErrorEvent e
        · rfl
        · exact absurd hb he
      rw [processChunk_cons_of_not_error s e tl he']
      rw [ih (applyEvent s e) (fun x hx => h x (List.mem_cons_of_mem e hx))]
      exact applyEvent_councilPart s e (h e (List.mem_cons_self e tl))

theorem processStream_hybridPart (chunks : List (List Event)) :
    ∀ s : SendState, (∀ c ∈ chunks, ∀ e ∈ c, isHybridEvent e = false) →
      hybridPart (processStream s chunks).assistantMessage =
        hybridPart s.assistantMessage := by
  induction chunks with
  | nil => intro s _; rfl
  | cons c rest ih =>
    intro s h
    show hybridPart (processStream (processChunk s c) rest).assistantMessage = _
    rw [ih (processChunk s c) (fun x hx => h x (List.mem_cons_of_mem c hx))]
    exact processChunk_hybridPart c s (h c (List.mem_cons_self c rest))

theorem processStream_councilPart (chunks : List (List Event)) :
    ∀ s : SendState, (∀ c ∈ chunks, ∀ e ∈ c, isCouncilEvent e = false) →
      councilPart (processStream s chunks).assistantMessage =
        councilPart s.assistantMessage := by
  induction chunks with
  | nil => intro s _; rfl
  | cons c rest ih =>
    intro s h
    show councilPart (processStream (processChunk s c) rest).assistantMessage = _
    rw [ih (processChunk s c) (fun x hx => h x (List.mem_cons_of_mem c hx))]
    exact processChunk_councilPart c s (h c (List.mem_cons_self c rest))

/-- C2: the assistant placeholder created by a send has the fields of both
protocols initialised empty; council events never touch the hybrid
fields and hybrid events never touch the stage fields, so in a run whose
stream carries only one protocol the unused protocol fields of the final
accumulated assistant message are still exactly their empty initial
values. -/
theorem protocol_fields_disjoint (conv : Conversation) (content mode : String)
    (chunks : List (List Event)) :
    (councilPart (initialAssistantMessage mode) = (some [], some [], none) ∧
      hybridPart (initialAssistantMessage mode) = (some [], some [], none, none)) ∧
    (∀ (s : SendState) (e : Event), isCouncilEvent e = true →
      hybridPart (applyEvent s e).assistantMessage =
        hybridPart s.assistantMessage) ∧
    (∀ (s : SendState) (e : Event), isHybridEvent e = true →
      councilPart (applyEvent s e).assistantMessage =
        councilPart s.assistantMessage) ∧
    ((∀ c ∈ chunks, ∀ e ∈ c, isHybridEvent e = false) →
      hybridPart (handleSendMessage conv content mode chunks).assistantMessage =
        (some [], some [], none, none)) ∧
    ((∀ c ∈ chunks, ∀ e ∈ c, isCouncilEvent e = false) →
      councilPart (handleSendMessage conv content mode chunks).assistantMessage =
        (some [], some [], none)) := by
  refine ⟨⟨rfl, rfl⟩, ?_, ?_, ?_, ?_⟩
  · intro s e he
    apply applyEvent_hybridPart
    cases e <;> first
      | rfl
      | simp [isCouncilEvent] at he
  · intro s e he
    apply applyEvent_councilPart
    cases e <;> first
      | rfl
      | simp [isHybridEvent] at he
  · intro h
    rw [show handleSendMessage conv content mode chunks =
        processStream (initialSendState conv content mode) chunks from rfl,
      processStream_hybridPart chunks _ h]
    rfl
  · intro h
    rw [show handleSendMessage conv content mode chunks =
        processStream (initialSendState conv content mode) chunks from rfl,
      processStream_councilPart chunks _ h]
    rfl

/-- Concrete instance of C2: a council-only stream leaves the hybrid
fields empty. -/
theorem protocol_fields_disjoint_witness :
    hybridPart (handleSendMessage sampleConv "q" "council"
        [[Event.stage1_complete [{ model := "m1", response := "r1" }]],
         [Event.stage3_complete { model := "c", response := "fin" },
          Event.title_complete "T", Event.complete]]).assistantMessage =
      (some [], some [], none, none) :=
  (protocol_fields_disjoint sampleConv "q" "council"
      [[Event.stage1_complete [{ model := "m1", response := "r1" }]],
       [Event.stage3_complete { model := "c", response := "fin" },
        Event.title_complete "T", Event.complete]]).2.2.2.1 (by decide)

theorem setLast_eq_dropLast_append (l : List Message) (m : Message)
    (h : l ≠ []) : setLast l m = l.dropLast ++ [m] := by
  cases l with
  | nil => exact absurd rfl h
  | cons a tl => rfl

theorem getLast?_setLast (l : List Message) (m : Message) (h : l ≠ []) :
    (setLast l m).getLast? = some m := by
  rw [setLast_eq_dropLast_append l m h, List.getLast?_append_cons]
  rfl

/-- The send loop invariant: the last message of the conversation is the
current value of the assistantMessage accumulator. -/
def lastIsAccumulator (s : SendState) : Prop :=
  s.conv.messages.getLast? = some s.assistantMessage

theorem lastIsAccumulator_nonempty {s : SendState} (h : lastIsAccumulator s) :
    s.conv.messages ≠ [] := by
  intro hn
  unfold lastIsAccumulator at h
  rw [hn] at h
  exact Option.noConfusion h

theorem applyEvent_lastIsAccumulator (s : SendState) (e : Event)
    (h : lastIsAccumulator s) : lastIsAccumulator (applyEvent s e) := by
  have hne : s.conv.messages ≠ [] := lastIsAccumulator_nonempty h
  cases e <;> first
    | exact getLast?_setLast _ _ hne
    | exact h

theorem processChunk_lastIsAccumulator (chunk : List Event) :
    ∀ s : SendState, lastIsAccumulator s →
      lastIsAccumulator (processChunk s chunk) := by
  induction chunk with
  | nil => intro s h; exact h
  | cons e tl ih =>
    intro s h
    by_cases he : isErrorEvent e = true
    · obtain ⟨m, rfl⟩ : ∃ m, e = Event.error m := by
        cases e <;> first
          | exact ⟨_, rfl⟩
          | simp [isErrorEvent] at he
      exact h
    · have he' : isErrorEvent e = false := by
        cases hb : isErrorEvent e
        · rfl
        · exact absurd hb he
      rw [processChunk_cons_of_not_error s e tl he']
      exact ih (applyEvent s e) (applyEvent_lastIsAccumulator s e h)

theorem processStream_lastIsAccumulator (chunks : List (List Event)) :
    ∀ s : SendState, lastIsAccumulator s →
      lastIsAccumulator (processStream s chunks) := by
  induction chunks with
  | nil => intro s h; exact h
  | cons c rest ih =>
    intro s h
    exact ih (processChunk s c) (processChunk_lastIsAccumulator c s h)

theorem initialSendState_lastIsAccumulator (conv : Conversation)
    (content mode : String) : lastIsAccumulator (initialSendState conv content mode) := by
  show (conv.messages ++
      [mkUserMessage content, initialAssistantMessage mode]).getLast? = _
  rw [List.getLast?_append_cons]
  rfl

/-- Every state the send loop reaches satisfies the accumulator
invariant. -/
theorem handleSendMessage_lastIsAccumulator (conv : Conversation)
    (content mode : String) (chunks : List (List Event)) :
    lastIsAccumulator (handleSendMessage conv content mode chunks) :=
  processStream_lastIsAccumulator chunks _
    (initialSendState_lastIsAccumulator conv content mode)

/-- The frame condition C3 states for one completion event: the field
named by the event type is replaced (together with metadata for
stage2_complete) and every other field of the message is kept. -/
def specCompletionUpdate (m : Message) : Event → Message
  | .stage1_complete d => { m with stage1 := some d }
  | .stage2_complete d meta => { m with stage2 := some d, metadata := some meta }
  | .stage3_complete d => { m with stage3 := some d }
  | .hybrid_phase1_complete d => { m with hybrid_phase1 := some d }
  | .hybrid_phase2_complete d => { m with hybrid_phase2 := some d }
  | .hybrid_phase3_complete d => { m with hybrid_phase3 := some d }
  | .hybrid_phase4_complete d => { m with hybrid_phase4 := some d }
  | _ => m

/-- C3: a completion event replaces the last message of the conversation
by the last message with only the field named by the event type updated
(plus metadata for stage2_complete); every earlier message and the title
are unchanged. -/
theorem completion_event_frame (s : SendState) (e : Event) (last : Message)
    (h1 : s.conv.messages.getLast? = some last)
    (hinv : s.assistantMessage = last)
    (h2 : isCompletionEvent e = true) :
    (applyEvent s e).conv.messages =
      s.conv.messages.dropLast ++ [specCompletionUpdate last e] ∧
    (applyEvent s e).conv.title = s.conv.title := by
  have hne : s.conv.messages ≠ [] := by
    intro hn
    rw [hn] at h1
    exact Option.noConfusion h1
  subst hinv
  constructor
  · cases e <;> first
      | exact setLast_eq_dropLast_append _ _ hne
      | simp [isCompletionEvent] at h2
  · cases e <;> first
      | rfl
      | simp [isCompletionEvent] at h2

/-- Concrete instance of C3 at the initial send state and a
stage1_complete event. -/
theorem completion_event_frame_witness :
    (applyEvent (initialSendState sampleConv "q" "council")
        (Event.stage1_complete [{ model := "m1", response := "r1" }])).conv.messages =
      (initialSendState sampleConv "q" "council").conv.messages.dropLast ++
        [specCompletionUpdate (initialAssistantMessage "council")
          (Event.stage1_complete [{ model := "m1", response := "r1" }])] ∧
    (applyEvent (initialSendState sampleConv "q" "council")
        (Event.stage1_complete [{ model := "m1", response := "r1" }])).conv.title =
      (initialSendState sampleConv "q" "council").conv.title :=
  completion_event_frame (initialSendState sampleConv "q" "council")
    (Event.stage1_complete [{ model := "m1", response := "r1" }])
    (initialAssistantMessage "council") (by decide) (by decide) (by decide)

/-- Rendering of one extracted ranking label in the Stage2 component:
either attributed to a model through the label_to_model map or shown
bare. -/
inductive LabelRender where
  | bare (label : String)
  | attributed (label : String) (model : String)
deriving DecidableEq, Repr

/-- The list item for one parsed label (Stage2.jsx lines 74 to 82).  The
JS condition is labelToModel && labelToModel[label]; a lookup result is
truthy only when it is a non-empty string. -/
def renderLabel (labelToModel : Option (List (String × String)))
    (label : String) : LabelRender :=
  match labelToModel with
  | none => .bare label
  | some m =>
    match List.lookup label m with
    | some v => if v = "" then .bare label else .attributed label v
    | none => .bare label

/-- The rendered Stage 2 panel: tab bar, raw evaluation text of the
active record, optional extracted ranking list and optional aggregate
rankings block. -/
structure Stage2View where
  tabs : List String
  raw : String
  extracted : Option (List LabelRender)
  aggregates : Option (List (Nat × AggregateEntry))
deriving DecidableEq, Repr

/-- The aggregate rankings display list: a 1-based position badge next to
each entry in received order. -/
def renderAggregates (l : List AggregateEntry) : List (Nat × AggregateEntry) :=
  l.enum.map (fun p => (p.1 + 1, p.2))

/-- The Stage2 component (Stage2.jsx): none is the branch showing no
rankings; activeTab is the tab selection state. -/
def stage2View (rankings : Option (List RankingRecord))
    (labelToModel : Option (List (String × String)))
    (aggregateRankings : Option (List AggregateEntry)) (activeTab : Nat) :
    Option Stage2View :=
  match rankings with
  | none => none
  | some [] => none
  | some rs =>
      let r := rs.getD activeTab default
      some
        { tabs := rs.map (fun x => x.model)
          raw := r.ranking
          extracted :=
            match r.parsed_ranking with
            | some l =>
                if l.isEmpty then none
                else some (l.map (renderLabel labelToModel))
            | none => none
          aggregates :=
            match aggregateRankings with
            | some l => if l.isEmpty then none else some (renderAggregates l)
            | none => none }

/-- C4: whenever the Stage 2 view shows a record, the raw evaluation text
of that record is displayed unconditionally, and the extracted ranking
block is displayed exactly when the record carries a present, non-empty
parsed_ranking; an empty or absent parsed order still yields a rendered
view. -/
theorem stage2_raw_always_extracted_iff (rs : List RankingRecord)
    (ltm : Option (List (String × String)))
    (agg : Option (List AggregateEntry)) (t : Nat) (ht : t < rs.length) :
    ∃ v, stage2View (some rs) ltm agg t = some v ∧
      v.raw = (rs.get ⟨t, ht⟩).ranking ∧
      ((∃ l, (rs.get ⟨t, ht⟩).parsed_ranking = some l ∧ l ≠ []) ↔
        v.extracted.isSome) := by
  match rs, ht with
  | a :: tl, ht =>
    refine ⟨_, rfl, ?_, ?_⟩
    · show ((a :: tl).getD t default).ranking = _
      rw [List.getD_eq_getElem (a :: tl) default ht]
      rfl
    · rw [show ((a :: tl).get ⟨t, ht⟩).parsed_ranking =
          ((a :: tl).getD t default).parsed_ranking by
        rw [List.getD_eq_getElem (a :: tl) default ht]; rfl]
      cases hp : ((a :: tl).getD t default).parsed_ranking with
      | none => simp [hp]
      | some l =>
        cases l with
        | nil => simp
        | cons x xs => simp

/-- A sample ranking record whose extraction failed. -/
def sampleRecord : RankingRecord :=
  { model := "m1", ranking := "raw text", parsed_ranking := some [] }

/-- Concrete instance of C4 with one record whose extraction failed. -/
theorem stage2_raw_always_extracted_iff_witness :
    ∃ v, stage2View (some [sampleRecord]) none none 0 = some v ∧
      v.raw = ([sampleRecord].get ⟨0, Nat.zero_lt_succ 0⟩).ranking ∧
      ((∃ l, ([sampleRecord].get ⟨0, Nat.zero_lt_succ 0⟩).parsed_ranking =
          some l ∧ l ≠ []) ↔ v.extracted.isSome) :=
  stage2_raw_always_extracted_iff [sampleRecord] none none 0 (Nat.zero_lt_succ 0)

/-- C5: a label whose lookup in the label map fails, or shown while the
map is absent, is rendered bare, without attribution and without error;
a label with a mapped model identity is rendered together with it. -/
theorem label_lookup_soft_failure (label : String)
    (m : List (String × String)) (v : String) :
    renderLabel none label = LabelRender.bare label ∧
    (List.lookup label m = none →
      renderLabel (some m) label = LabelRender.bare label) ∧
    (List.lookup label m = some v → v ≠ "" →
      renderLabel (some m) label = LabelRender.attributed label v) := by
  refine ⟨rfl, ?_, ?_⟩
  · intro h
    show (match List.lookup label m with
      | some v => if v = "" then LabelRender.bare label
                  else LabelRender.attributed label v
      | none => LabelRender.bare label) = _
    rw [h]
  · intro h hv
    show (match List.lookup label m with
      | some v => if v = "" then LabelRender.bare label
                  else LabelRender.attributed label v
      | none => LabelRender.bare label) = _
    rw [h]
    simp [hv]

/-- Concrete instance of C5: a fabricated label is shown bare, a mapped
label is attributed. -/
theorem label_lookup_soft_failure_witness :
    renderLabel (some [("Response A", "modelA")]) "Response Z" =
        LabelRender.bare "Response Z" ∧
    renderLabel (some [("Response A", "modelA")]) "Response A" =
        LabelRender.attributed "Response A" "modelA" :=
  ⟨(label_lookup_soft_failure "Response Z" [("Response A", "modelA")]
      "modelA").2.1 (by decide),
   (label_lookup_soft_failure "Response A" [("Response A", "modelA")]
      "modelA").2.2 (by decide) (by decide)⟩

/-- C6: a stage2_complete event stores both payloads on the assistant
message, the ranking record sequence in stage2 and the sibling metadata
with the aggregate-rankings structure, and the written message reaches
the conversation; the Stage 2 panel exposes every record by model and
shows the aggregate entries with position badges in exactly the order
they were received. -/
theorem stage2_event_records_both_payloads (s : SendState)
    (recs : List RankingRecord) (meta : Metadata)
    (agg : List AggregateEntry) (t : Nat) :
    ((applyEvent s (Event.stage2_complete recs meta)).assistantMessage.stage2 =
        some recs ∧
      (applyEvent s (Event.stage2_complete recs meta)).assistantMessage.metadata =
        some meta) ∧
    (s.conv.messages ≠ [] →
      (applyEvent s (Event.stage2_complete recs meta)).conv.messages.getLast? =
        some { s.assistantMessage with stage2 := some recs, metadata := some meta }) ∧
    (recs ≠ [] → meta.aggregate_rankings = some agg → agg ≠ [] →
      ∃ v, stage2View (some recs) meta.label_to_model meta.aggregate_rankings t =
          some v ∧
        v.tabs = recs.map (fun r => r.model) ∧
        v.aggregates = some (renderAggregates agg) ∧
        (renderAggregates agg).map Prod.snd = agg) := by
  refine ⟨⟨rfl, rfl⟩, ?_, ?_⟩
  · intro hne
    exact getLast?_setLast _ _ hne
  · intro h1 h2 h3
    match recs, h1 with
    | a :: tl, _ =>
      refine ⟨_, rfl, rfl, ?_, ?_⟩
      · show (match meta.aggregate_rankings with
          | some l => if l.isEmpty then none else some (renderAggregates l)
          | none => none) = some (renderAggregates agg)
        rw [h2]
        match agg, h3 with
        | b :: bs, _ => rfl
      · simp only [renderAggregates, List.map_map]
        exact List.enum_map_snd agg

/-- A sample aggregate entry. -/
def sampleAggregate : AggregateEntry :=
  { model := "m1", average_rank := 3 / 2, rankings_count := 2 }

/-- A sample stage2 metadata object. -/
def sampleMetadata : Metadata :=
  { label_to_model := some [("Response A", "m1")],
    aggregate_rankings := some [sampleAggregate] }

/-- Concrete instance of C6 at the initial send state, hypotheses
discharged. -/
theorem stage2_event_records_both_payloads_witness :
    ((applyEvent (initialSendState sampleConv "q" "council")
        (Event.stage2_complete [sampleRecord] sampleMetadata)).assistantMessage.stage2 =
        some [sampleRecord] ∧
      (applyEvent (initialSendState sampleConv "q" "council")
        (Event.stage2_complete [sampleRecord] sampleMetadata)).assistantMessage.metadata =
        some sampleMetadata) ∧
    ((applyEvent (initialSendState sampleConv "q" "council")
        (Event.stage2_complete [sampleRecord] sampleMetadata)).conv.messages.getLast? =
        some { (initialSendState sampleConv "q" "council").assistantMessage with
          stage2 := some [sampleRecord], metadata := some sampleMetadata }) ∧
    (∃ v, stage2View (some [sampleRecord]) sampleMetadata.label_to_model
          sampleMetadata.aggregate_rankings 0 = some v ∧
        v.tabs = [sampleRecord].map (fun r => r.model) ∧
        v.aggregates = some (renderAggregates [sampleAggregate]) ∧
        (renderAggregates [sampleAggregate]).map Prod.snd = [sampleAggregate]) :=
  ⟨(stage2_event_records_both_payloads (initialSendState sampleConv "q" "council")
      [sampleRecord] sampleMetadata [sampleAggregate] 0).1,
   (stage2_event_records_both_payloads (initialSendState sampleConv "q" "council")
      [sampleRecord] sampleMetadata [sampleAggregate] 0).2.1 (by decide),
   (stage2_event_records_both_payloads (initialSendState sampleConv "q" "council")
      [sampleRecord] sampleMetadata [sampleAggregate] 0).2.2 (by decide) rfl
      (by decide)⟩

/-- The JS value a hybrid phase reads from the message: an array of
responses, a single response object, or null/undefined. -/
inductive PhaseData where
  | arr (rs : List ModelResponse)
  | obj (r : ModelResponse)
  | nullv
deriving DecidableEq, Repr

/-- The isEmpty check of PhaseBlock (HybridView.jsx lines 74 to 75): no
data, an empty array, or a non-array value with a falsy response. -/
def isEmptyData : PhaseData → Bool
  | .nullv => true
  | .arr rs => rs.isEmpty
  | .obj r => r.response == ""

/-- What the body of a phase block shows: a loading spinner, one tab per
response record (ModelTabs), or a single model response. -/
inductive PhaseRender where
  | spinner
  | tabs (rs : List ModelResponse)
  | single (model : String) (response : String)
deriving DecidableEq, Repr

/-- One PHASE_CONFIG entry, keeping the rendering-relevant fields; labels
and styling are presentation-only and omitted. -/
structure PhaseCfg where
  key : String
  multi : Bool
deriving DecidableEq, Repr

def PHASE_CONFIG : List PhaseCfg :=
  [ { key := "hybrid_phase1", multi := true },
    { key := "hybrid_phase2", multi := true },
    { key := "hybrid_phase3", multi := false },
    { key := "hybrid_phase4", multi := false } ]

/-- The response list ModelTabs receives; a non-array value here is a
type error in the source, never reached for well-typed messages. -/
def phaseDataList : PhaseData → List ModelResponse
  | .arr rs => rs
  | _ => []

/-- PhaseBlock with its collapse state in the initial open position:
nothing when the data is empty and the phase is not loading, otherwise a
spinner while loading without data, tabs for a multi phase, or the
single model response for a non-multi phase. -/
def phaseBlock (cfg : PhaseCfg) (data : PhaseData) (isLoading : Bool) :
    Option PhaseRender :=
  if isEmptyData data && !isLoading then none
  else some
    (if isLoading && isEmptyData data then PhaseRender.spinner
     else if cfg.multi then PhaseRender.tabs (phaseDataList data)
     else
       match data with
       | .obj r => PhaseRender.single r.model r.response
       | _ => PhaseRender.single "" "")

def optArrData : Option (List ModelResponse) → PhaseData
  | some rs => .arr rs
  | none => .nullv

def optObjData : Option ModelResponse → PhaseData
  | some r => .obj r
  | none => .nullv

/-- message[phase.key] for the four hybrid phase keys. -/
def messagePhaseData (msg : Message) (key : String) : PhaseData :=
  if key == "hybrid_phase1" then optArrData msg.hybrid_phase1
  else if key == "hybrid_phase2" then optArrData msg.hybrid_phase2
  else if key == "hybrid_phase3" then optObjData msg.hybrid_phase3
  else if key == "hybrid_phase4" then optObjData msg.hybrid_phase4
  else .nullv

/-- HybridView: one phase block per PHASE_CONFIG entry, keyed by its
phase key; loadingPhase is the hybridLoadingPhase prop. -/
def hybridView (msg : Message) (loadingPhase : String) :
    List (String × Option PhaseRender) :=
  PHASE_CONFIG.map
    (fun p => (p.key, phaseBlock p (messagePhaseData msg p.key)
      (loadingPhase == p.key)))

/-- C7: the hybrid view renders phase 1 and phase 2 data as one tab per
response record, renders phase 3 and phase 4 data as a single model
response and never as tabs, and renders nothing for a phase whose data
is empty or absent while the phase is not loading. -/
theorem hybrid_view_phase_shapes (msg : Message) (lp : String) :
    (∀ l, msg.hybrid_phase1 = some l → l ≠ [] →
      List.lookup "hybrid_phase1" (hybridView msg lp) =
        some (some (PhaseRender.tabs l))) ∧
    (∀ l, msg.hybrid_phase2 = some l → l ≠ [] →
      List.lookup "hybrid_phase2" (hybridView msg lp) =
        some (some (PhaseRender.tabs l))) ∧
    (∀ r, msg.hybrid_phase3 = some r → r.response ≠ "" →
      List.lookup "hybrid_phase3" (hybridView msg lp) =
        some (some (PhaseRender.single r.model r.response))) ∧
    (∀ r, msg.hybrid_phase4 = some r → r.response ≠ "" →
      List.lookup "hybrid_phase4" (hybridView msg lp) =
        some (some (PhaseRender.single r.model r.response))) ∧
    (∀ p ∈ PHASE_CONFIG, isEmptyData (messagePhaseData msg p.key) = true →
      lp ≠ p.key → List.lookup p.key (hybridView msg lp) = some none) := by
  refine ⟨?_, ?_, ?_, ?_, ?_⟩
  · intro l hl hne
    match l, hne with
    | x :: xs, _ =>
      simp [hybridView, PHASE_CONFIG, List.lookup, messagePhaseData,
        optArrData, phaseBlock, isEmptyData, phaseDataList, hl]
  · intro l hl hne
    match l, hne with
    | x :: xs, _ =>
      simp [hybridView, PHASE_CONFIG, List.lookup, messagePhaseData,
        optArrData, phaseBlock, isEmptyData, phaseDataList, hl]
  · intro r hr hne
    simp [hybridView, PHASE_CONFIG, List.lookup, messagePhaseData,
      optObjData, phaseBlock, isEmptyData, hr, hne]
  · intro r hr hne
    simp [hybridView, PHASE_CONFIG, List.lookup, messagePhaseData,
      optObjData, phaseBlock, isEmptyData, hr, hne]
  · intro p hp hempty hlp
    fin_cases hp <;>
      simp_all [hybridView, PHASE_CONFIG, List.lookup, messagePhaseData,
        phaseBlock]

/-- A sample hybrid assistant message: phase 2 has one record, phase 3
carries a challenge, phase 4 is still absent. -/
def sampleHybridMessage : Message :=
  { role := "assistant", content := "", mode := some "hybrid",
    stage1 := some [], stage2 := some [], stage3 := none,
    hybrid_phase1 := some [],
    hybrid_phase2 := some [{ model := "m1", response := "r1" }],
    hybrid_phase3 := some { model := "d", response := "ch" },
    hybrid_phase4 := none, metadata := some emptyMetadata }

/-- Concrete instance of C7: one nonempty debate phase, one synthesis
record, one empty idle phase. -/
theorem hybrid_view_phase_shapes_witness :
    List.lookup "hybrid_phase2" (hybridView sampleHybridMessage "") =
      some (some (PhaseRender.tabs [{ model := "m1", response := "r1" }])) ∧
    List.lookup "hybrid_phase3" (hybridView sampleHybridMessage "") =
      some (some (PhaseRender.single "d" "ch")) ∧
    List.lookup "hybrid_phase4" (hybridView sampleHybridMessage "") =
      some none := by
  refine ⟨?_, ?_, ?_⟩
  · exact (hybrid_view_phase_shapes _ "").2.1
      [{ model := "m1", response := "r1" }] rfl (by decide)
  · exact (hybrid_view_phase_shapes _ "").2.2.1
      { model := "d", response := "ch" } rfl (by decide)
  · exact (hybrid_view_phase_shapes _ "").2.2.2.2
      { key := "hybrid_phase4", multi := false } (by decide) (by decide) (by decide)

/-- messages.find over role assistant (ChatInterface.jsx line 26). -/
def firstAssistant (msgs : List Message) : Option Message :=
  msgs.find? (fun m => m.role == "assistant")

/-- JS truthiness of an optional string field: absent, null and the empty
string are falsy. -/
def jsTruthyStr : Option String → Bool
  | none => false
  | some s => !(s == "")

/-- firstAssistant.stage1 || firstAssistant.stage2 || firstAssistant.stage3:
a JS array or object is truthy whenever present, even an empty array. -/
def stagePresent (m : Message) : Bool :=
  m.stage1.isSome || m.stage2.isSome || m.stage3.isSome

/-- conversationMode of ChatInterface.jsx lines 25 to 31. -/
def conversationMode (msgs : List Message) : Option String :=
  match firstAssistant msgs with
  | none => none
  | some fa =>
    if jsTruthyStr fa.mode then fa.mode
    else if stagePresent fa then some "council"
    else none

/-- isLocked of ChatInterface.jsx line 32. -/
def isLocked (msgs : List Message) : Bool :=
  (conversationMode msgs).isSome

/-- A click on a mode button: onClick runs setMode only when unlocked and
the button is disabled when locked. -/
def clickMode (msgs : List Message) (current target : String) : String :=
  if isLocked msgs then current else target

/-- An assistant message that stores no mode and no council stage data,
for example a stored hybrid reply without a mode field. -/
def bareAssistantMessage : Message :=
  { role := "assistant", content := "", mode := none,
    stage1 := none, stage2 := none, stage3 := none,
    hybrid_phase1 := some [{ model := "m1", response := "r1" }],
    hybrid_phase2 := none, hybrid_phase3 := none, hybrid_phase4 := none,
    metadata := none }

/-- C8 fails on the code: this conversation contains an assistant message,
yet the selector is not locked and a click does change the mode. -/
theorem mode_lock_counterexample :
    firstAssistant [bareAssistantMessage] = some bareAssistantMessage ∧
    isLocked [bareAssistantMessage] = false ∧
    clickMode [bareAssistantMessage] "council" "hybrid" = "hybrid" := by
  decide

/-- C8 (amended): the selector is locked exactly when the first assistant
message has a truthy (non-empty) mode field or has any of its
stage1/stage2/stage3 fields present, empty arrays included; when locked
a click keeps the current mode and the locked mode is the truthy mode
field, otherwise council; with no assistant message the selector is
unlocked and a click switches the mode. -/
theorem mode_lock_amended (msgs : List Message) (current target : String) :
    (firstAssistant msgs = none →
      isLocked msgs = false ∧ clickMode msgs current target = target) ∧
    (∀ fa, firstAssistant msgs = some fa →
      (isLocked msgs = true ↔
        (jsTruthyStr fa.mode = true ∨ stagePresent fa = true))) ∧
    (isLocked msgs = true → clickMode msgs current target = current) ∧
    (isLocked msgs = false → clickMode msgs current target = target) ∧
    (∀ fa m, firstAssistant msgs = some fa → fa.mode = some m → m ≠ "" →
      conversationMode msgs = some m) ∧
    (∀ fa, firstAssistant msgs = some fa → jsTruthyStr fa.mode = false →
      stagePresent fa = true → conversationMode msgs = some "council") := by
  refine ⟨?_, ?_, ?_, ?_, ?_, ?_⟩
  · intro h
    have hc : conversationMode msgs = none := by
      unfold conversationMode
      rw [h]
    constructor
    · simp [isLocked, hc]
    · simp [clickMode, isLocked, hc]
  · intro fa hfa
    unfold isLocked conversationMode
    rw [hfa]
    by_cases hm : jsTruthyStr fa.mode = true
    · simp only [hm, if_true]
      cases hmode : fa.mode with
      | none => rw [hmode] at hm; exact absurd hm (by simp [jsTruthyStr])
      | some m => simp [hm]
    · have hm' : jsTruthyStr fa.mode = false := by
        cases hb : jsTruthyStr fa.mode
        · rfl
        · exact absurd hb hm
      simp only [hm', if_false, Bool.false_eq_true, false_or]
      by_cases hs : stagePresent fa = true
      · simp [hs]
      · have hs' : stagePresent fa = false := by
          cases hb : stagePresent fa
          · rfl
          · exact absurd hb hs
        simp [hs']
  · intro h
    simp [clickMode, h]
  · intro h
    simp [clickMode, h]
  · intro fa m hfa hm hne
    unfold conversationMode
    rw [hfa]
    simp [jsTruthyStr, hm, hne]
  · intro fa hfa hm hs
    unfold conversationMode
    rw [hfa]
    simp [hm, hs]

/-- Concrete instance of the amended C8: a conversation with a stored
council reply (no mode field, empty stage arrays) is locked to council
and a click keeps the mode. -/
def storedCouncilMessage : Message :=
  { role := "assistant", content := "", mode := none,
    stage1 := some [], stage2 := some [], stage3 := none,
    hybrid_phase1 := none, hybrid_phase2 := none, hybrid_phase3 := none,
    hybrid_phase4 := none, metadata := none }

theorem mode_lock_amended_witness :
    conversationMode [storedCouncilMessage] = some "council" ∧
    clickMode [storedCouncilMessage] "council" "hybrid" = "council" :=
  ⟨(mode_lock_amended [storedCouncilMessage] "council" "hybrid").2.2.2.2.2
      storedCouncilMessage (by decide) (by decide) (by decide),
   (mode_lock_amended [storedCouncilMessage] "council" "hybrid").2.2.1
      (by decide)⟩

/-- The ChatInterface form state relevant to a submission. -/
structure UIState where
  input : String
  isLoading : Bool
  mode : String
  loadingStage : String
  hybridLoadingPhase : String
deriving DecidableEq, Repr

/-- Whitespace as stripped by the JS string trim method, restricted to
the ASCII whitespace characters relevant here. -/
def isJsSpace (c : Char) : Bool :=
  c == ' ' || c == '\t' || c == '\n' || c == '\r'

/-- input.trim(): leading and trailing whitespace removed. -/
def jsTrim (s : String) : String :=
  String.mk (((s.data.dropWhile isJsSpace).reverse.dropWhile isJsSpace).reverse)

/-- handleSubmit (ChatInterface.jsx lines 68 to 83): the guard returns
early on blank input or while a request is in flight; otherwise the send
runs and the state it leaves behind has the input cleared and the
loading flags reset.  The second component is the onSendMessage call
made, if any. -/
def handleSubmit (st : UIState) : UIState × Option (String × String) :=
  if jsTrim st.input == "" || st.isLoading then (st, none)
  else
    ({ st with
        input := ""
        isLoading := false
        loadingStage := ""
        hybridLoadingPhase := "" },
      some (st.input, st.mode))

/-- The submit button disabled condition (ChatInterface.jsx line 376). -/
def sendButtonDisabled (st : UIState) : Bool :=
  st.isLoading || jsTrim st.input == ""

/-- C10: submitting with empty or whitespace-only input, or while a
previous request is in flight, calls onSendMessage with nothing and
leaves the state untouched; the send button is disabled as well. -/
theorem blank_or_inflight_submit_is_noop (st : UIState)
    (h : jsTrim st.input = "" ∨ st.isLoading = true) :
    handleSubmit st = (st, none) ∧ sendButtonDisabled st = true := by
  have hb : (jsTrim st.input == "" || st.isLoading) = true := by
    rcases h with h | h
    · simp [h]
    · simp [h]
  constructor
  · simp [handleSubmit, hb]
  · rcases h with h | h
    · simp [sendButtonDisabled, h]
    · simp [sendButtonDisabled, h]

/-- A form state with whitespace-only input and no request in flight. -/
def blankInputState : UIState :=
  { input := "   ", isLoading := false, mode := "council",
    loadingStage := "", hybridLoadingPhase := "" }

/-- Concrete instance of C10 with whitespace-only input. -/
theorem blank_or_inflight_submit_is_noop_witness :
    handleSubmit blankInputState = (blankInputState, none) ∧
    sendButtonDisabled blankInputState = true :=
  blank_or_inflight_submit_is_noop blankInputState (Or.inl (by decide))

end ModelBehavior
